import Mathlib

/-!
Verification development for the portal2-cm-boards ranking/deduplication
engine and cache-freshness coordinator.

The definitions below are a shallow embedding of the Rust source:

* `filterCoopAux` / `filter_coop_entries` embed
  `filter_coop_entries` (src/server/src/api/v1/handlers/coop.rs, lines
  170-213): a single linear pass over score-sorted paired entries with a
  `HashMap<String, i32>` used as a seen-set (modelled as a `List String`
  with cons as insert and list membership as lookup; the map's values are
  never read, only key presence matters), followed by `truncate(limit)`.
* `coopPreviewDedupAux` and `CoopPreview.get_coop_preview` embed the
  dedup loop of `CoopPreview::get_coop_preview`
  (src/server/src/controllers/coop.rs, lines 107-171), including the
  `.unwrap()` on the optional second player id (a panic is modelled as
  `none`) and the fact that the SQL text hardcodes `map_id = '47825'`
  while the function's `map_id` argument is bound but unused by the query.
* `CoopPreviews.get_coop_previews` embeds the per-map aggregation loop
  (src/server/src/controllers/coop.rs, lines 176-187).
* `get_cooperative_preview`, `sp`, `sp_post_score`, `sp_update` and
  `post_score_coop` embed the cache-coordinator behaviour of the HTTP
  handlers, with the database / file-system collaborators abstracted as
  explicit `Except`-valued inputs and the shared freshness table as an
  association list threaded through.
-/

/-- Modelled from the spec: the PointsScorer `score`
(`crate::tools::helpers::score`) is not under src/. Per spec section 4.3 it
is a pure function of the 1-based rank, monotonically non-increasing, with
a fixed maximum at rank 1 (the worked example shows 200.0 points at
rank 1). Points are modelled as integers. -/
def score (rank : Int) : Int := max 0 (201 - rank)

/-- Entry of a coop map page (model `CoopMap`); only the fields the
ranking/dedup logic reads are embedded (the remaining SQL columns are
inert metadata). -/
structure CoopMap where
  profile_number1 : String
  profile_number2 : String
  score : Int
deriving DecidableEq, Repr

/-- Ranked coop entry (model `CoopRanked`): map data plus 1-based rank and
points. -/
structure CoopRanked where
  map_data : CoopMap
  rank : Int
  points : Int
deriving DecidableEq, Repr

/-- The dedup/rank loop of `filter_coop_entries`
(handlers/coop.rs, lines 176-210). `seen` is the `remove_dups` map's key
set; each step inserts `profile_number1`, then checks/inserts
`profile_number2` against the updated set, keeping the entry unless both
slots were already present. Both slots end up inserted on every path. -/
def filterCoopAux : List CoopMap → List String → Int → List CoopRanked
  | [], _, _ => []
  | e :: rest, seen, i =>
    if e.profile_number1 ∈ seen ∧ e.profile_number2 ∈ e.profile_number1 :: seen then
      filterCoopAux rest (e.profile_number2 :: e.profile_number1 :: seen) i
    else
      { map_data := e, rank := i, points := score i } ::
        filterCoopAux rest (e.profile_number2 :: e.profile_number1 :: seen) (i + 1)

/-- Embeds `filter_coop_entries` (handlers/coop.rs, lines 170-213): the
seen-set starts holding the sentinel `""` (`remove_dups.insert("", 1)`),
ranks start at 1, and the ranked list is truncated to `limit` at the end. -/
def filter_coop_entries (coop_entries : List CoopMap) (limit : Nat) : List CoopRanked :=
  (filterCoopAux coop_entries [""] 1).take limit

/-- Entry of the coop preview query (model `CoopPreview`); the second
player id is optional in the model, as in the source. -/
structure CoopPreview where
  profile_number1 : String
  profile_number2 : Option String
  score : Int
deriving DecidableEq, Repr

/-- The dedup loop of `CoopPreview::get_coop_preview`
(controllers/coop.rs, lines 157-168). Each step unconditionally calls
`.unwrap()` on `profile_number2`; an absent second id panics, modelled by
returning `none`. -/
def coopPreviewDedupAux : List CoopPreview → List String → Option (List CoopPreview)
  | [], _ => some []
  | e :: rest, seen =>
    match e.profile_number2 with
    | none => none
    | some p2 =>
      if e.profile_number1 ∈ seen ∧ p2 ∈ e.profile_number1 :: seen then
        coopPreviewDedupAux rest (p2 :: e.profile_number1 :: seen)
      else
        (coopPreviewDedupAux rest (p2 :: e.profile_number1 :: seen)).map (e :: ·)

/-- The post-processing of `CoopPreview::get_coop_preview`
(controllers/coop.rs, lines 153-170) applied to the fetched rows: dedup
with the seen-set pre-seeded with the sentinel `"N/A"`, then
`truncate(7)`. -/
def coopPreviewFilter (res : List CoopPreview) : Option (List CoopPreview) :=
  (coopPreviewDedupAux res ["N/A"]).map (List.take 7)

/-- Row of the store feeding the coop preview query: the `map_id` of the
changelog entries a coop bundle joins against, plus the selected columns. -/
structure CoopDbRow where
  map_id : String
  preview : CoopPreview
deriving DecidableEq, Repr

/-- Abstract relational store for the preview query. -/
structure CoopDb where
  rows : List CoopDbRow
deriving DecidableEq, Repr

/-- The SQL query of `CoopPreview::get_coop_preview`
(controllers/coop.rs, lines 110-151): rows are already score-ordered and
ban/verification-filtered by the collaborator; the WHERE clause compares
against the literal `'47825'` (the `map_id` argument is bound but the
query text contains no parameter placeholder), and the result is limited
to 40 rows. -/
def coopPreviewQuery (db : CoopDb) (_map_id : String) : List CoopPreview :=
  ((db.rows.filter (fun r => r.map_id = "47825")).map (fun r => r.preview)).take 40

/-- Embeds `CoopPreview::get_coop_preview` (controllers/coop.rs, lines
107-171): fetch, dedup, truncate to 7. -/
def CoopPreview.get_coop_preview (db : CoopDb) (map_id : String) : Option (List CoopPreview) :=
  coopPreviewFilter (coopPreviewQuery db map_id)

/-- Per-map preview record (model `CoopPreviews`). -/
structure CoopPreviews where
  map_id : String
  scores : List CoopPreview
deriving DecidableEq, Repr

/-- Embeds `CoopPreviews::get_coop_previews` (controllers/coop.rs, lines
176-187): for each known map id, fetch that map's preview (errors and
panics propagate) and assemble one record per map. -/
def CoopPreviews.get_coop_previews (db : CoopDb) : List String → Option (List CoopPreviews)
  | [] => some []
  | map_id :: rest =>
    match CoopPreview.get_coop_preview db map_id with
    | none => none
    | some scores =>
      match CoopPreviews.get_coop_previews db rest with
      | none => none
      | some tail => some ({ map_id := map_id, scores := scores } :: tail)

/-- Embeds `CoopMap::get_coop_map_page` (controllers/coop.rs, lines
35-102) after the external query: the collaborator returns the
score-ascending filtered rows, and the function truncates them to
`limit`. -/
def get_coop_map_page (rows : List CoopMap) (limit : Nat) : List CoopMap :=
  rows.take limit

/-- Embeds the `get_cooperative_maps` handler pipeline
(handlers/coop.rs, lines 60-81): page fetch (truncated to
`config.proof.results`) followed by `filter_coop_entries` with the same
limit. -/
def get_cooperative_maps (rows : List CoopMap) (limit : Nat) : List CoopRanked :=
  filter_coop_entries (get_coop_map_page rows limit) limit

/-- Entry of an SP map page (model `SpMap`); only logic-relevant fields. -/
structure SpMap where
  profile_number : String
  score : Int
deriving DecidableEq, Repr

/-- Ranked SP entry (model `SpRanked`). -/
structure SpRanked where
  map_data : SpMap
  rank : Int
  points : Int
deriving DecidableEq, Repr

/-- Modelled from the spec: `SpMap::get_sp_map_page`
(src/server/src/controllers/sp.rs) is not under src/. Per spec sections
4.4 and 6 the collaborator returns score-ascending deduplicated rows and
the requested page is truncated to the page-size limit. -/
def get_sp_map_page (rows : List SpMap) (limit : Nat) : List SpMap :=
  rows.take limit

/-- The ranking loop of the `sp_map` handler (handlers/sp.rs, lines
127-135): enumerate the fetched rows, rank = index + 1, points =
score(rank). -/
def spMapRanking (entries : List SpMap) : List SpRanked :=
  entries.enum.map (fun ie =>
    { map_data := ie.2, rank := (ie.1 : Int) + 1, points := score ((ie.1 : Int) + 1) })

/-- Embeds the `sp_map` handler (handlers/sp.rs, lines 107-137): fetch the
page (limit `config.proof.results`) and rank it. -/
def sp_map (rows : List SpMap) (limit : Nat) : List SpRanked :=
  spMapRanking (get_sp_map_page rows limit)

/-- HTTP response shape of the coop preview handler. -/
inductive CoopResponse (α : Type) where
  | ok (previews : α)
  | notFound (msg : String)
deriving DecidableEq, Repr

/-- Embeds the `get_cooperative_preview` handler (handlers/coop.rs, lines
18-45). Inputs: the current `coop_previews` freshness flag, the outcome of
`CoopPreviews::get_coop_previews`, whether `write_to_file` succeeds, and
the outcome of `read_from_file`. Output: the flag after the request and
the HTTP response. -/
def get_cooperative_preview {α : Type} (is_cached : Bool)
    (compute : Except String α) (write_ok : Bool)
    (read_result : Except String α) : Bool × CoopResponse α :=
  if !is_cached then
    match compute with
    | Except.ok previews =>
      if write_ok then (true, CoopResponse.ok previews)
      else (is_cached, CoopResponse.ok previews)
    | Except.error _ =>
      (is_cached, CoopResponse.notFound "Error fetching coop map previews.")
  else
    match read_result with
    | Except.ok previews => (is_cached, CoopResponse.ok previews)
    | Except.error _ =>
      (is_cached, CoopResponse.notFound "Error fetching coop previews from cache")

/-- Embeds the `sp` handler (handlers/sp.rs, lines 51-66). Same inputs as
the coop handler; errors propagate through `?` as `Except.error`. -/
def sp {α : Type} (is_cached : Bool) (compute : Except String α)
    (write_ok : Bool) (read_result : Except String α) : Bool × Except String α :=
  if !is_cached then
    match compute with
    | Except.ok sp_previews =>
      if write_ok then (true, Except.ok sp_previews)
      else (is_cached, Except.ok sp_previews)
    | Except.error e => (is_cached, Except.error e)
  else
    (is_cached, read_result)

/-- Embeds `CacheState::update_current_state`: set the named key's
freshness flag in the shared table. -/
def updateCurrentState (cache : List (String × Bool)) (key : String) (v : Bool) :
    List (String × Bool) :=
  cache.map (fun kv => if kv.1 = key then (kv.1, v) else kv)

/-- Embeds the `sp_post_score` handler (handlers/sp.rs, lines 398-407):
on successful insert, set `sp_previews` to stale (`false`) and return the
new id; on insert failure the `?` propagates before the cache is touched. -/
def sp_post_score (cache : List (String × Bool)) (insert_result : Except String Int) :
    List (String × Bool) × Except String Int :=
  match insert_result with
  | Except.ok id => (updateCurrentState cache "sp_previews" false, Except.ok id)
  | Except.error e => (cache, Except.error e)

/-- Embeds the `sp_update` handler (handlers/sp.rs, lines 461-471):
on successful update, set `sp_previews` to stale and return the entry. -/
def sp_update (cache : List (String × Bool)) (update_result : Except String Int) :
    List (String × Bool) × Except String Int :=
  match update_result with
  | Except.ok entry => (updateCurrentState cache "sp_previews" false, Except.ok entry)
  | Except.error e => (cache, Except.error e)

/-- Embeds the `post_score_coop` handler (handlers/coop.rs, lines
149-168): the insert result is ignored, the cache-invalidation block is
commented out in the source, and the handler unconditionally answers with
the constant id 1. -/
def post_score_coop (cache : List (String × Bool))
    (_insert_result : Except String Int) : List (String × Bool) × Int :=
  (cache, 1)

/-- Slots of a list of paired entries: both player ids of every entry, in
order. -/
def coopSlots (l : List CoopMap) : List String :=
  l.flatMap (fun e => [e.profile_number1, e.profile_number2])

/-- Spec-side pair deduplication, written from the claim's words for
comparison with `filterCoopAux`: an entry is discarded iff both of its
player slots already occur among the slots of earlier processed entries
(or in the fixed base set `base`); kept entries appear in input order. -/
def pairDedupSpec (base : List String) : List CoopMap → List CoopMap → List CoopMap
  | [], _ => []
  | e :: rest, processed =>
    if e.profile_number1 ∈ base ++ coopSlots processed ∧
        e.profile_number2 ∈ base ++ coopSlots processed then
      pairDedupSpec base rest (processed ++ [e])
    else
      e :: pairDedupSpec base rest (processed ++ [e])

/-- Slots of a list of preview entries: the first player id and, when
present, the second. -/
def previewSlots (l : List CoopPreview) : List String :=
  l.flatMap (fun e => e.profile_number1 :: e.profile_number2.toList)

/-- Spec-side pair deduplication for preview entries, written from the
claim's words for comparison with `coopPreviewDedupAux`: an entry is
discarded iff every player slot it carries is already seen. -/
def previewDedupSpec (base : List String) :
    List CoopPreview → List CoopPreview → List CoopPreview
  | [], _ => []
  | e :: rest, processed =>
    match e.profile_number2 with
    | none =>
      if e.profile_number1 ∈ base ++ previewSlots processed then
        previewDedupSpec base rest (processed ++ [e])
      else
        e :: previewDedupSpec base rest (processed ++ [e])
    | some p2 =>
      if e.profile_number1 ∈ base ++ previewSlots processed ∧
          p2 ∈ base ++ previewSlots processed then
        previewDedupSpec base rest (processed ++ [e])
      else
        e :: previewDedupSpec base rest (processed ++ [e])

/-- Concrete seven-team preview input: seven entries with fourteen
distinct player ids, so deduplication keeps all seven. -/
def previewSeven : List CoopPreview :=
  [{ profile_number1 := "a1", profile_number2 := some "b1", score := 1 },
   { profile_number1 := "a2", profile_number2 := some "b2", score := 2 },
   { profile_number1 := "a3", profile_number2 := some "b3", score := 3 },
   { profile_number1 := "a4", profile_number2 := some "b4", score := 4 },
   { profile_number1 := "a5", profile_number2 := some "b5", score := 5 },
   { profile_number1 := "a6", profile_number2 := some "b6", score := 6 },
   { profile_number1 := "a7", profile_number2 := some "b7", score := 7 }]

/-- Counterexample to C1 as stated: the single-entry input whose two
player slots are the empty string has no earlier entry at all, so the
claim keeps it (both slots are first-seen), yet `filter_coop_entries`
discards it because the seen-set is pre-seeded with the sentinel `""`. -/
theorem c1_counterexample :
    (filterCoopAux [{ profile_number1 := "", profile_number2 := "", score := 100 }] [""] 1).map
        (fun r => r.map_data) = [] ∧
      pairDedupSpec [] [{ profile_number1 := "", profile_number2 := "", score := 100 }] [] =
        [{ profile_number1 := "", profile_number2 := "", score := 100 }] := by
  decide

/-- C9: the cooperative map-page path truncates the raw score-sorted rows
to the page limit before deduplication, so for this input (two raw rows of
the same team followed by a fresh team, limit 2) the returned page has
only 1 unique team even though a second qualifying team exists beyond the
first 2 raw rows (the full dedup keeps 2 entries). -/
theorem c9_truncate_before_dedup :
    (get_cooperative_maps
        [{ profile_number1 := "a", profile_number2 := "b", score := 100 },
         { profile_number1 := "a", profile_number2 := "b", score := 110 },
         { profile_number1 := "c", profile_number2 := "d", score := 120 }] 2).length = 1 ∧
      (filterCoopAux
        [{ profile_number1 := "a", profile_number2 := "b", score := 100 },
         { profile_number1 := "a", profile_number2 := "b", score := 110 },
         { profile_number1 := "c", profile_number2 := "d", score := 120 }] [""] 1).length = 2 := by
  decide

/-- C2: the preview query hardcodes map `'47825'`, so the board-wide
aggregation files map 47825's entries under every requested map: with a
store holding a single row belonging to map 47825 and a request for map
12345, the record assembled for 12345 contains that entry even though the
store has no row for map 12345. -/
theorem c2_hardcoded_map_id :
    CoopPreviews.get_coop_previews
        { rows := [{ map_id := "47825",
                     preview := { profile_number1 := "x", profile_number2 := some "y",
                                  score := 90 } }] } ["12345"] =
      some [{ map_id := "12345",
              scores := [{ profile_number1 := "x", profile_number2 := some "y",
                           score := 90 }] }] ∧
      (CoopDb.rows
          { rows := [{ map_id := "47825",
                       preview := { profile_number1 := "x", profile_number2 := some "y",
                                    score := 90 } }] }).filter
        (fun r => r.map_id = "12345") = [] := by
  decide

/-- C3: after a successful coop score insert, `post_score_coop` returns
(with the constant id 1) while leaving the `coop_previews` freshness flag
untouched — the invalidation block is commented out in the source — whereas
`sp_post_score` and `sp_update` do set `sp_previews` stale before
returning. -/
theorem c3_coop_post_score_no_invalidation :
    post_score_coop [("coop_previews", true)] (Except.ok 42) = ([("coop_previews", true)], 1) ∧
      sp_post_score [("sp_previews", true)] (Except.ok 42) =
        ([("sp_previews", false)], Except.ok 42) ∧
      sp_update [("sp_previews", true)] (Except.ok 7) =
        ([("sp_previews", false)], Except.ok 7) := by
  exact ⟨rfl, rfl, rfl⟩

/-- Counterexample to C5 as stated: with the `coop_previews` key Fresh and
a failing blob read, the handler returns the NotFound error response and
leaves the key Fresh — it does not fall back to the (available) recomputed
aggregate. -/
theorem c5_counterexample :
    get_cooperative_preview true (Except.ok [1, 2]) true (Except.error "corrupt") =
      (true, CoopResponse.notFound "Error fetching coop previews from cache") := by
  rfl

/-- C5 (amended): for every preview read that finds the key Fresh but
whose persisted blob read fails, both handlers return an error response
(coop: the NotFound cache message; sp: the propagated read error) and
leave the key Fresh; no recompute result is used. -/
theorem c5_fresh_read_failure_errors {α : Type} (compute : Except String α)
    (write_ok : Bool) (msg : String) :
    get_cooperative_preview true compute write_ok (Except.error msg) =
      (true, CoopResponse.notFound "Error fetching coop previews from cache") ∧
      sp true compute write_ok (Except.error msg) = (true, Except.error msg) := by
  exact ⟨rfl, rfl⟩

/-- C6: for every preview read that finds the key Stale, computes the
aggregate successfully but fails to persist it, both handlers still return
the freshly computed aggregate and leave the freshness flag at `false`, so
the next reader recomputes and retries the write. -/
theorem c6_write_failure_nonfatal {α : Type} (previews : α)
    (read_result : Except String α) :
    get_cooperative_preview false (Except.ok previews) false read_result =
      (false, CoopResponse.ok previews) ∧
      sp false (Except.ok previews) false read_result = (false, Except.ok previews) := by
  exact ⟨rfl, rfl⟩

/-- Helper: the preview dedup loop never hits the modelled panic when
every entry carries a second player id, for any seen-set. -/
theorem coopPreviewDedupAux_isSome :
    ∀ res : List CoopPreview, (∀ e ∈ res, e.profile_number2.isSome = true) →
      ∀ seen : List String, (coopPreviewDedupAux res seen).isSome = true := by
  intro res
  induction res with
  | nil => intro _ seen; rfl
  | cons e rest ih =>
    intro h seen
    have he := h e (List.mem_cons_self e rest)
    have hrest : ∀ e' ∈ rest, e'.profile_number2.isSome = true := by
      intro e' he'
      exact h e' (List.mem_cons_of_mem e he')
    cases hp : e.profile_number2 with
    | none => rw [hp] at he; exact absurd he (by decide)
    | some p2 =>
      show (coopPreviewDedupAux (e :: rest) seen).isSome = true
      unfold coopPreviewDedupAux
      rw [hp]
      show (if e.profile_number1 ∈ seen ∧ p2 ∈ e.profile_number1 :: seen then
          coopPreviewDedupAux rest (p2 :: e.profile_number1 :: seen)
        else
          Option.map (fun x => e :: x)
            (coopPreviewDedupAux rest (p2 :: e.profile_number1 :: seen))).isSome = true
      by_cases hc : e.profile_number1 ∈ seen ∧ p2 ∈ e.profile_number1 :: seen
      · rw [if_pos hc]
        exact ih hrest _
      · rw [if_neg hc]
        have := ih hrest (p2 :: e.profile_number1 :: seen)
        cases hd : coopPreviewDedupAux rest (p2 :: e.profile_number1 :: seen) with
        | none => rw [hd] at this; exact absurd this (by decide)
        | some d => simp

/-- C10: `coopPreviewFilter` on an entry whose second player id is absent
models the `.unwrap()` panic as `none` (the function is not total), and
under the precondition that every fetched entry has both player ids
present the dedup pipeline always succeeds. -/
theorem c10_unwrap_panics :
    coopPreviewFilter [{ profile_number1 := "p", profile_number2 := none, score := 5 }] =
      none ∧
      (∀ res : List CoopPreview,
        (∀ e ∈ res, e.profile_number2.isSome = true) →
          (coopPreviewFilter res).isSome = true) := by
  constructor
  · rfl
  · intro res h
    have := coopPreviewDedupAux_isSome res h ["N/A"]
    unfold coopPreviewFilter
    cases hd : coopPreviewDedupAux res ["N/A"] with
    | none => rw [hd] at this; exact absurd this (by decide)
    | some d => simp

/-- Witness for C10: the totality part applied at a concrete two-entry
input whose second player ids are both present. -/
theorem c10_unwrap_panics_witness :
    (coopPreviewFilter
        [{ profile_number1 := "p1", profile_number2 := some "q1", score := 5 },
         { profile_number1 := "p2", profile_number2 := some "q2", score := 6 }]).isSome =
      true := by
  exact c10_unwrap_panics.2
    [{ profile_number1 := "p1", profile_number2 := some "q1", score := 5 },
     { profile_number1 := "p2", profile_number2 := some "q2", score := 6 }]
    (by decide)

theorem coopSlots_append (a b : List CoopMap) :
    coopSlots (a ++ b) = coopSlots a ++ coopSlots b := by
  simp [coopSlots]

theorem filterCoopAux_mapdata_sublist :
    ∀ (l : List CoopMap) (s : List String) (i : Int),
      ((filterCoopAux l s i).map (fun r => r.map_data)).Sublist l := by
  intro l
  induction l with
  | nil => intro s i; simp [filterCoopAux]
  | cons e rest ih =>
    intro s i
    unfold filterCoopAux
    by_cases hc : e.profile_number1 ∈ s ∧ e.profile_number2 ∈ e.profile_number1 :: s
    · rw [if_pos hc]
      exact (ih _ _).cons e
    · rw [if_neg hc]
      simpa using (ih (e.profile_number2 :: e.profile_number1 :: s) (i + 1)).cons₂ e

theorem filterCoopAux_congr :
    ∀ (l : List CoopMap) (s₁ s₂ : List String), (∀ x, x ∈ s₁ ↔ x ∈ s₂) →
      ∀ i : Int, filterCoopAux l s₁ i = filterCoopAux l s₂ i := by
  intro l
  induction l with
  | nil => intro _ _ _ _; rfl
  | cons e rest ih =>
    intro s₁ s₂ h i
    have hnext : ∀ x, x ∈ e.profile_number2 :: e.profile_number1 :: s₁ ↔
        x ∈ e.profile_number2 :: e.profile_number1 :: s₂ := by
      intro x
      simp [List.mem_cons, h x]
    have hcond : (e.profile_number1 ∈ s₁ ∧ e.profile_number2 ∈ e.profile_number1 :: s₁) ↔
        (e.profile_number1 ∈ s₂ ∧ e.profile_number2 ∈ e.profile_number1 :: s₂) := by
      simp [List.mem_cons, h e.profile_number1, h e.profile_number2]
    unfold filterCoopAux
    by_cases hc : e.profile_number1 ∈ s₁ ∧ e.profile_number2 ∈ e.profile_number1 :: s₁
    · rw [if_pos hc, if_pos (hcond.mp hc), ih _ _ hnext]
    · rw [if_neg hc, if_neg (fun hx => hc (hcond.mpr hx)), ih _ _ hnext]

theorem filterCoopAux_eq_pairDedupSpec :
    ∀ (l : List CoopMap) (base s : List String) (processed : List CoopMap),
      (∀ x, x ∈ s ↔ x ∈ base ++ coopSlots processed) →
      ∀ i : Int,
        (filterCoopAux l s i).map (fun r => r.map_data) = pairDedupSpec base l processed := by
  intro l
  induction l with
  | nil => intro _ _ _ _ _; rfl
  | cons e rest ih =>
    intro base s processed h i
    have hcond : (e.profile_number1 ∈ s ∧ e.profile_number2 ∈ e.profile_number1 :: s) ↔
        (e.profile_number1 ∈ base ++ coopSlots processed ∧
          e.profile_number2 ∈ base ++ coopSlots processed) := by
      constructor
      · rintro ⟨h1, h2⟩
        refine ⟨(h _).mp h1, ?_⟩
        rcases List.mem_cons.mp h2 with h2a | h2b
        · rw [h2a]; exact (h _).mp h1
        · exact (h _).mp h2b
      · rintro ⟨h1, h2⟩
        exact ⟨(h _).mpr h1, List.mem_cons.mpr (Or.inr ((h _).mpr h2))⟩
    have hnext : ∀ x, x ∈ e.profile_number2 :: e.profile_number1 :: s ↔
        x ∈ base ++ coopSlots (processed ++ [e]) := by
      intro x
      rw [coopSlots_append]
      simp only [List.mem_cons, List.mem_append, h x, coopSlots, List.flatMap_cons,
        List.flatMap_nil, List.append_nil]
      tauto
    unfold filterCoopAux pairDedupSpec
    by_cases hc : e.profile_number1 ∈ s ∧ e.profile_number2 ∈ e.profile_number1 :: s
    · rw [if_pos hc, if_pos (hcond.mp hc)]
      exact ih base _ _ hnext i
    · rw [if_neg hc, if_neg (fun hx => hc (hcond.mpr hx))]
      simpa using ih base _ _ hnext (i + 1)

theorem filterCoopAux_map_rank :
    ∀ (l : List CoopMap) (s : List String) (i : Int),
      (filterCoopAux l s i).map (fun r => r.rank) =
        (List.range (filterCoopAux l s i).length).map (fun n : Nat => (n : Int) + i) := by
  intro l
  induction l with
  | nil => intro s i; rfl
  | cons e rest ih =>
    intro s i
    unfold filterCoopAux
    by_cases hc : e.profile_number1 ∈ s ∧ e.profile_number2 ∈ e.profile_number1 :: s
    · rw [if_pos hc]
      exact ih _ _
    · rw [if_neg hc]
      rw [List.map_cons, ih (e.profile_number2 :: e.profile_number1 :: s) (i + 1),
        List.length_cons, List.range_succ_eq_map, List.map_cons, List.map_map]
      congr 1
      · simp
      · apply List.map_congr_left
        intro a _
        simp only [Function.comp_apply, Nat.succ_eq_add_one]
        push_cast
        ring

theorem filterCoopAux_points :
    ∀ (l : List CoopMap) (s : List String) (i : Int) (r : CoopRanked),
      r ∈ filterCoopAux l s i → r.points = score r.rank := by
  intro l
  induction l with
  | nil => intro s i r hr; simp [filterCoopAux] at hr
  | cons e rest ih =>
    intro s i r hr
    unfold filterCoopAux at hr
    by_cases hc : e.profile_number1 ∈ s ∧ e.profile_number2 ∈ e.profile_number1 :: s
    · rw [if_pos hc] at hr
      exact ih _ _ _ hr
    · rw [if_neg hc] at hr
      rcases List.mem_cons.mp hr with h1 | h2
      · rw [h1]
      · exact ih _ _ _ h2

theorem filterCoopAux_idem :
    ∀ (l : List CoopMap) (s : List String) (i : Int),
      filterCoopAux ((filterCoopAux l s i).map (fun r => r.map_data)) s i =
        filterCoopAux l s i := by
  intro l
  induction l with
  | nil => intro s i; rfl
  | cons e rest ih =>
    intro s i
    by_cases hc : e.profile_number1 ∈ s ∧ e.profile_number2 ∈ e.profile_number1 :: s
    · have hs : ∀ x, x ∈ e.profile_number2 :: e.profile_number1 :: s ↔ x ∈ s := by
        intro x
        have hp2 : e.profile_number2 ∈ s := by
          rcases List.mem_cons.mp hc.2 with h1 | h2
          · rw [h1]; exact hc.1
          · exact h2
        constructor
        · intro hx
          rcases List.mem_cons.mp hx with h1 | hx2
          · rw [h1]; exact hp2
          · rcases List.mem_cons.mp hx2 with h2 | h3
            · rw [h2]; exact hc.1
            · exact h3
        · intro hx
          exact List.mem_cons.mpr (Or.inr (List.mem_cons.mpr (Or.inr hx)))
      have hrw : filterCoopAux (e :: rest) s i =
          filterCoopAux rest (e.profile_number2 :: e.profile_number1 :: s) i := by
        conv_lhs => rw [filterCoopAux]
        rw [if_pos hc]
      rw [hrw]
      rw [filterCoopAux_congr _ s (e.profile_number2 :: e.profile_number1 :: s)
        (fun x => (hs x).symm) i]
      exact ih _ _
    · show filterCoopAux ((filterCoopAux (e :: rest) s i).map (fun r => r.map_data)) s i =
        filterCoopAux (e :: rest) s i
      conv_lhs => rw [filterCoopAux, if_neg hc]
      rw [List.map_cons]
      show filterCoopAux
          (e :: (filterCoopAux rest (e.profile_number2 :: e.profile_number1 :: s) (i + 1)).map
            (fun r => r.map_data)) s i = _
      unfold filterCoopAux
      rw [if_neg hc, if_neg hc]
      rw [ih _ _]

theorem filterCoopAux_take_comm :
    ∀ (k : List CoopMap) (s : List String) (i : Int) (m : Nat),
      (filterCoopAux k s i).map (fun r => r.map_data) = k →
        filterCoopAux (k.take m) s i = (filterCoopAux k s i).take m := by
  intro k
  induction k with
  | nil => intro s i m _; simp [filterCoopAux]
  | cons e rest ih =>
    intro s i m h
    by_cases hc : e.profile_number1 ∈ s ∧ e.profile_number2 ∈ e.profile_number1 :: s
    · exfalso
      rw [filterCoopAux, if_pos hc] at h
      have hsub := filterCoopAux_mapdata_sublist rest
        (e.profile_number2 :: e.profile_number1 :: s) i
      have hlen := hsub.length_le
      rw [h] at hlen
      simp at hlen
    · rw [filterCoopAux, if_neg hc, List.map_cons, List.cons.injEq] at h
      cases m with
      | zero => simp [List.take_zero, filterCoopAux]
      | succ m =>
        rw [List.take_succ_cons]
        show filterCoopAux (e :: rest.take m) s i = _
        rw [filterCoopAux, if_neg hc, filterCoopAux, if_neg hc, List.take_succ_cons]
        rw [ih _ _ m h.2]

theorem previewSlots_append (a b : List CoopPreview) :
    previewSlots (a ++ b) = previewSlots a ++ previewSlots b := by
  simp [previewSlots]

theorem coopPreviewDedupAux_cons_some (e : CoopPreview) (rest : List CoopPreview)
    (seen : List String) (p2 : String) (hp : e.profile_number2 = some p2) :
    coopPreviewDedupAux (e :: rest) seen =
      if e.profile_number1 ∈ seen ∧ p2 ∈ e.profile_number1 :: seen then
        coopPreviewDedupAux rest (p2 :: e.profile_number1 :: seen)
      else
        (coopPreviewDedupAux rest (p2 :: e.profile_number1 :: seen)).map (e :: ·) := by
  rw [coopPreviewDedupAux, hp]

theorem previewDedupSpec_cons_some (base : List String) (e : CoopPreview)
    (rest processed : List CoopPreview) (p2 : String) (hp : e.profile_number2 = some p2) :
    previewDedupSpec base (e :: rest) processed =
      if e.profile_number1 ∈ base ++ previewSlots processed ∧
          p2 ∈ base ++ previewSlots processed then
        previewDedupSpec base rest (processed ++ [e])
      else
        e :: previewDedupSpec base rest (processed ++ [e]) := by
  rw [previewDedupSpec, hp]

theorem coopPreviewDedupAux_sublist :
    ∀ (res : List CoopPreview) (seen : List String) (out : List CoopPreview),
      coopPreviewDedupAux res seen = some out → out.Sublist res := by
  intro res
  induction res with
  | nil =>
    intro seen out h
    cases h
    exact List.Sublist.refl []
  | cons e rest ih =>
    intro seen out h
    cases hp : e.profile_number2 with
    | none => rw [coopPreviewDedupAux, hp] at h; exact absurd h (by simp)
    | some p2 =>
      rw [coopPreviewDedupAux_cons_some e rest seen p2 hp] at h
      by_cases hc : e.profile_number1 ∈ seen ∧ p2 ∈ e.profile_number1 :: seen
      · rw [if_pos hc] at h
        exact (ih _ _ h).cons e
      · rw [if_neg hc] at h
        cases hd : coopPreviewDedupAux rest (p2 :: e.profile_number1 :: seen) with
        | none => rw [hd] at h; exact absurd h (by simp)
        | some d =>
          rw [hd] at h
          simp only [Option.map_some', Option.some.injEq] at h
          rw [← h]
          exact (ih _ _ hd).cons₂ e

theorem coopPreviewDedupAux_eq_spec :
    ∀ (res : List CoopPreview) (base s : List String) (processed : List CoopPreview),
      (∀ e ∈ res, e.profile_number2.isSome = true) →
      (∀ x, x ∈ s ↔ x ∈ base ++ previewSlots processed) →
        coopPreviewDedupAux res s = some (previewDedupSpec base res processed) := by
  intro res
  induction res with
  | nil => intro base s processed _ _; rfl
  | cons e rest ih =>
    intro base s processed hall h
    have he := hall e (List.mem_cons_self e rest)
    have hrest : ∀ e' ∈ rest, e'.profile_number2.isSome = true := by
      intro e' he'
      exact hall e' (List.mem_cons_of_mem e he')
    cases hp : e.profile_number2 with
    | none => rw [hp] at he; exact absurd he (by decide)
    | some p2 =>
      have hcond : (e.profile_number1 ∈ s ∧ p2 ∈ e.profile_number1 :: s) ↔
          (e.profile_number1 ∈ base ++ previewSlots processed ∧
            p2 ∈ base ++ previewSlots processed) := by
        constructor
        · rintro ⟨h1, h2⟩
          refine ⟨(h _).mp h1, ?_⟩
          rcases List.mem_cons.mp h2 with h2a | h2b
          · rw [h2a]; exact (h _).mp h1
          · exact (h _).mp h2b
        · rintro ⟨h1, h2⟩
          exact ⟨(h _).mpr h1, List.mem_cons.mpr (Or.inr ((h _).mpr h2))⟩
      have hnext : ∀ x, x ∈ p2 :: e.profile_number1 :: s ↔
          x ∈ base ++ previewSlots (processed ++ [e]) := by
        intro x
        rw [previewSlots_append]
        simp only [List.mem_cons, List.mem_append, h x, previewSlots, List.flatMap_cons,
          List.flatMap_nil, List.append_nil, hp, Option.toList_some]
        tauto
      rw [coopPreviewDedupAux_cons_some e rest s p2 hp,
        previewDedupSpec_cons_some base e rest processed p2 hp]
      by_cases hc : e.profile_number1 ∈ s ∧ p2 ∈ e.profile_number1 :: s
      · rw [if_pos hc, if_pos (hcond.mp hc)]
        exact ih base _ _ hrest hnext
      · rw [if_neg hc, if_neg (fun hx => hc (hcond.mpr hx))]
        rw [ih base _ _ hrest hnext]
        rfl

/-- C1 (amended): the pair-dedup loops keep an entry iff at least one of
its slots is neither a slot of an earlier processed entry nor the
pre-seeded sentinel id. -/
theorem c1_pair_dedup_policy :
    (∀ l : List CoopMap,
      (filterCoopAux l [""] 1).map (fun r => r.map_data) = pairDedupSpec [""] l []) ∧
    (∀ l : List CoopMap, ((filterCoopAux l [""] 1).map (fun r => r.map_data)).Sublist l) ∧
    (∀ res : List CoopPreview, (∀ e ∈ res, e.profile_number2.isSome = true) →
      coopPreviewDedupAux res ["N/A"] = some (previewDedupSpec ["N/A"] res [])) ∧
    (∀ res out : List CoopPreview,
      coopPreviewDedupAux res ["N/A"] = some out → out.Sublist res) := by
  refine ⟨?_, ?_, ?_, ?_⟩
  · intro l
    exact filterCoopAux_eq_pairDedupSpec l [""] [""] [] (fun x => by simp [coopSlots]) 1
  · intro l
    exact filterCoopAux_mapdata_sublist l [""] 1
  · intro res hall
    exact coopPreviewDedupAux_eq_spec res ["N/A"] ["N/A"] [] hall
      (fun x => by simp [previewSlots])
  · intro res out h
    exact coopPreviewDedupAux_sublist res ["N/A"] out h

/-- Witness for C1 at a concrete preview input with both ids present. -/
theorem c1_pair_dedup_policy_witness :
    coopPreviewDedupAux
        [{ profile_number1 := "a", profile_number2 := some "b", score := 1 }] ["N/A"] =
      some (previewDedupSpec ["N/A"]
        [{ profile_number1 := "a", profile_number2 := some "b", score := 1 }] []) ∧
      List.Sublist
        ([{ profile_number1 := "a", profile_number2 := some "b", score := 1 }] :
          List CoopPreview)
        ([{ profile_number1 := "a", profile_number2 := some "b", score := 1 }] :
          List CoopPreview) := by
  constructor
  · exact c1_pair_dedup_policy.2.2.1
      [{ profile_number1 := "a", profile_number2 := some "b", score := 1 }] (by decide)
  · exact c1_pair_dedup_policy.2.2.2
      [{ profile_number1 := "a", profile_number2 := some "b", score := 1 }]
      [{ profile_number1 := "a", profile_number2 := some "b", score := 1 }] (by decide)

/-- C4: both rank-assignment paths produce ranks exactly 1..len(output)
in order, points computed from the rank by the scorer, and output length
at most the page limit. -/
theorem c4_rank_assignment (l : List CoopMap) (rows : List SpMap) (lim : Nat) :
    (filter_coop_entries l lim).map (fun r => r.rank) =
      (List.range (filter_coop_entries l lim).length).map (fun n : Nat => (n : Int) + 1) ∧
    (filter_coop_entries l lim).map (fun r => r.points) =
      (filter_coop_entries l lim).map (fun r => score r.rank) ∧
    (filter_coop_entries l lim).length ≤ lim ∧
    (sp_map rows lim).map (fun r => r.rank) =
      (List.range (sp_map rows lim).length).map (fun n : Nat => (n : Int) + 1) ∧
    (sp_map rows lim).map (fun r => r.points) =
      (sp_map rows lim).map (fun r => score r.rank) ∧
    (sp_map rows lim).length ≤ lim := by
  refine ⟨?_, ?_, ?_, ?_, ?_, ?_⟩
  · show ((filterCoopAux l [""] 1).take lim).map (fun r => r.rank) = _
    rw [List.map_take, filterCoopAux_map_rank l [""] 1, ← List.map_take, List.take_range]
    show _ = (List.range ((filterCoopAux l [""] 1).take lim).length).map _
    rw [List.length_take]
  · apply List.map_congr_left
    intro r hr
    exact filterCoopAux_points l [""] 1 r (List.take_subset _ _ hr)
  · show ((filterCoopAux l [""] 1).take lim).length ≤ lim
    rw [List.length_take]
    exact min_le_left _ _
  · simp only [sp_map, spMapRanking, get_sp_map_page, List.map_map, List.length_map,
      List.enum_length]
    rw [← List.enum_map_fst (rows.take lim), List.map_map]
    rfl
  · simp only [sp_map, spMapRanking, List.map_map]
    rfl
  · simp only [sp_map, spMapRanking, get_sp_map_page, List.length_map, List.enum_length,
      List.length_take]
    exact min_le_left _ _

/-- C7: preview records hold at most 7 entries; an empty input yields an
empty list, not an error; exactly 7 post-dedup entries are all returned in
unmodified order; and every record assembled board-wide obeys the bound. -/
theorem c7_preview_bounds :
    (∀ res out : List CoopPreview, coopPreviewFilter res = some out → out.length ≤ 7) ∧
    coopPreviewFilter [] = some [] ∧
    (∀ res d : List CoopPreview, coopPreviewDedupAux res ["N/A"] = some d → d.length = 7 →
      coopPreviewFilter res = some d) ∧
    (∀ (db : CoopDb) (ids : List String) (out : List CoopPreviews),
      CoopPreviews.get_coop_previews db ids = some out →
        ∀ rec ∈ out, rec.scores.length ≤ 7) := by
  have hlen : ∀ res out : List CoopPreview, coopPreviewFilter res = some out →
      out.length ≤ 7 := by
    intro res out h
    unfold coopPreviewFilter at h
    cases hd : coopPreviewDedupAux res ["N/A"] with
    | none => rw [hd] at h; exact absurd h (by simp)
    | some d =>
      rw [hd] at h
      simp only [Option.map_some', Option.some.injEq] at h
      rw [← h, List.length_take]
      exact min_le_left _ _
  refine ⟨hlen, rfl, ?_, ?_⟩
  · intro res d hd hdlen
    unfold coopPreviewFilter
    rw [hd]
    simp only [Option.map_some', Option.some.injEq]
    rw [← hdlen, List.take_length]
  · intro db ids
    induction ids with
    | nil =>
      intro out h
      cases h
      intro rec hrec
      exact absurd hrec (by simp)
    | cons id rest ih =>
      intro out h
      rw [CoopPreviews.get_coop_previews] at h
      cases hp : CoopPreview.get_coop_preview db id with
      | none => rw [hp] at h; exact absurd h (by simp)
      | some scores =>
        rw [hp] at h
        cases hr : CoopPreviews.get_coop_previews db rest with
        | none => rw [hr] at h; exact absurd h (by simp)
        | some tail =>
          rw [hr] at h
          simp only [Option.some.injEq] at h
          intro rec hrec
          rw [← h] at hrec
          rcases List.mem_cons.mp hrec with h1 | h2
          · rw [h1]
            exact hlen _ _ hp
          · exact ih tail hr rec h2

/-- Witness for C7 at concrete inputs: a singleton preview, the
seven-team input kept whole, and a one-map board-wide aggregation. -/
theorem c7_preview_bounds_witness :
    ([{ profile_number1 := "w", profile_number2 := some "v", score := 3 }] :
        List CoopPreview).length ≤ 7 ∧
      coopPreviewFilter previewSeven = some previewSeven ∧
      ([{ profile_number1 := "x", profile_number2 := some "y", score := 90 }] :
          List CoopPreview).length ≤ 7 := by
  refine ⟨?_, ?_, ?_⟩
  · exact c7_preview_bounds.1
      [{ profile_number1 := "w", profile_number2 := some "v", score := 3 }]
      [{ profile_number1 := "w", profile_number2 := some "v", score := 3 }] (by decide)
  · exact c7_preview_bounds.2.2.1 previewSeven previewSeven (by decide) (by decide)
  · exact c7_preview_bounds.2.2.2
      { rows := [{ map_id := "47825",
                   preview := { profile_number1 := "x", profile_number2 := some "y",
                                score := 90 } }] } ["47111"]
      [{ map_id := "47111",
         scores := [{ profile_number1 := "x", profile_number2 := some "y", score := 90 }] }]
      (by decide)
      { map_id := "47111",
        scores := [{ profile_number1 := "x", profile_number2 := some "y", score := 90 }] }
      (by decide)

/-- C8: re-running `filter_coop_entries` (same limit) on the map data of
its own output keeps every entry with identical ranks and points. -/
theorem c8_dedup_rank_idempotent (l : List CoopMap) (lim : Nat) :
    filter_coop_entries ((filter_coop_entries l lim).map (fun r => r.map_data)) lim =
      filter_coop_entries l lim := by
  unfold filter_coop_entries
  rw [List.map_take]
  have hidem := filterCoopAux_idem l [""] 1
  have h2 : (filterCoopAux ((filterCoopAux l [""] 1).map (fun r => r.map_data)) [""] 1).map
      (fun r => r.map_data) = (filterCoopAux l [""] 1).map (fun r => r.map_data) := by
    rw [hidem]
  rw [filterCoopAux_take_comm _ [""] 1 lim h2, hidem, List.take_take, min_self]
